import Mathlib

/-!
Verification development for the tone-trace fingerprinting engine
(`src/audio_analyzer.py`, class `AudioAnalyzer`).

Shallow-embedding conventions:

* Python lists become Lean `List`s; audio samples are modelled as `ℚ`
  (an exact stand-in for the float samples); peak coordinates and Python
  integers are `Int`.
* External numeric kernels that the engine calls are parameters of the
  embedded functions:
  - `spectrumA frame` models the composite
    `np.abs(fft(frame * np.hanning(N)))[:N // 2]` (lines 185-189);
  - `log10q` models `np.log10` (line 193);
  - `detect` models the peak-detection block built from
    `iterate_structure`/`maximum_filter`/`binary_erosion` and the
    amplitude filter (lines 221-254), mapping the transposed
    spectrogram to the list of `(frequency_bin, time_frame)` pairs;
  - `digest` models `fun s => hashlib.sha1(s.encode()).hexdigest()`
    (lines 318-321).
* Fallible code returns `Except String`; the error strings are the
  messages numpy/Python raise on the corresponding path.
* Mutable state: `AudioAnalyzer._ya_graficado` is threaded explicitly as
  a `Bool` through `huellas_digitales` and `pipeline`.
-/

namespace ToneTrace

/-- Constant MIN_DELTA_TIME_HASH (audio_analyzer.py line 73). -/
def MIN_DELTA_TIME_HASH : Int := 0

/-- Constant MAX_DELTA_TIME_HASH (audio_analyzer.py line 74). -/
def MAX_DELTA_TIME_HASH : Int := 200

/-- Constant FOOTPRINT_REDUCTION (audio_analyzer.py line 76): number of hex
characters of the SHA-1 digest that are kept. -/
def FOOTPRINT_REDUCTION : Nat := 20

/-- Constant DEFAULT_FAN_VALUE (audio_analyzer.py line 69). -/
def DEFAULT_FAN_VALUE : Int := 15

/-- Message numpy raises for `np.min` on an empty array, and for
`np.min(datos[np.nonzero(datos)])` when `datos` has no nonzero entry. -/
def zeroSizeMsg : String :=
  "zero-size array to reduction operation minimum which has no identity"

/-- Message Python raises for integer division by zero (relevant when
`hop_size` would be 0 in `_huellas_digitales`). -/
def intDivMsg : String := "integer division or modulo by zero"

/-- Method `_reemplazarCeros` (lines 104-119): replace the zeros of the
spectrum by its smallest nonzero value.  `np.min(datos[np.nonzero(datos)])`
raises a zero-size-reduction `ValueError` when `datos` has no nonzero
entry, which the embedding surfaces as `Except.error`. -/
def reemplazarCeros (datos : List ℚ) : Except String (List ℚ) :=
  match (datos.filter (fun x => decide (x ≠ 0))).min? with
  | none => Except.error zeroSizeMsg
  | some min_nonzero =>
      Except.ok (datos.map (fun x => if x = 0 then min_nonzero else x))

/-- Spectrogram frame loop of `_huellas_digitales` (lines 172-195): build the
list of per-frame log spectra for the first `n_frames` frames.  The frame at
index `i` is `muestras[i*hop_size : i*hop_size + tamano_ventana]`; a short
frame is skipped (`continue`, line 181); each kept frame goes through the
abstract magnitude spectrum `spectrumA`, then `_reemplazarCeros`, then
`10 * log10` (line 193). -/
def buildSpectro (spectrumA : List ℚ → List ℚ) (log10q : ℚ → ℚ)
    (muestras : List ℚ) (tamano_ventana hop_size : Nat) :
    Nat → Except String (List (List ℚ))
  | 0 => Except.ok []
  | n + 1 =>
      match buildSpectro spectrumA log10q muestras tamano_ventana hop_size n with
      | Except.error e => Except.error e
      | Except.ok acc =>
          let frame := (muestras.drop (n * hop_size)).take tamano_ventana
          if frame.length < tamano_ventana then Except.ok acc
          else
            match reemplazarCeros (spectrumA frame) with
            | Except.error e => Except.error e
            | Except.ok datos =>
                Except.ok (acc ++ [datos.map (fun x => 10 * log10q x)])

/-- Frame-count computation and spectrogram construction of
`_huellas_digitales` (lines 165-200).  `hop_size` is
`int(tamano_ventana * (1 - RELATIONSHIP_OVERLAP_BY_DEFECT))` (line 166; the
module constant 0.5 is used, not the `relacion_superposicion` parameter).
`n_frames` is `1 + (len - tamano_ventana) // hop_size` when
`len >= tamano_ventana`, else `0` (line 169); the Python `//` raises
`ZeroDivisionError` when `hop_size` is 0. -/
def huellas_core (spectrumA : List ℚ → List ℚ) (log10q : ℚ → ℚ)
    (tamano_ventana : Nat) (muestras : List ℚ) :
    Except String (List (List ℚ)) :=
  let hop_size := tamano_ventana / 2
  match (if tamano_ventana ≤ muestras.length then
          (if hop_size = 0 then Except.error intDivMsg
           else Except.ok (1 + (muestras.length - tamano_ventana) / hop_size))
         else Except.ok 0 : Except String Nat) with
  | Except.error e => Except.error e
  | Except.ok n_frames =>
      buildSpectro spectrumA log10q muestras tamano_ventana hop_size n_frames

/-- Method `_huellas_digitales` (lines 121-254).  After the spectrogram rows
are built they are transposed (line 200; `np.array(arr2D).T`); the clamp of
`-np.inf` cells to 0 (line 203) is the identity here because after a
successful `_reemplazarCeros` every entry is strictly positive, so no `-∞`
can be produced.  The debug print at line 206 evaluates `np.min(arr2D)`,
which raises a zero-size-reduction `ValueError` when the array has no
element; `totalSize` is the numpy `size` of the array, i.e. the sum of the
row lengths.  The plotting block (lines 210-216) runs when the analyzer has
not plotted yet and the array is non-empty, and sets `_ya_graficado`
(threaded here as the `Bool` component).  Peak detection and the amplitude
filter (lines 221-254) are the abstract `detect` applied to the transposed
spectrogram. -/
def huellas_digitales (spectrumA : List ℚ → List ℚ) (log10q : ℚ → ℚ)
    (detect : List (List ℚ) → List (Int × Int)) (tamano_ventana : Nat)
    (relacion_superposicion : ℚ) (st : Bool) (muestras : List ℚ) :
    Except String (Bool × List (Int × Int)) :=
  match huellas_core spectrumA log10q tamano_ventana muestras with
  | Except.error e => Except.error e
  | Except.ok rows =>
      let totalSize := (rows.map List.length).sum
      if totalSize = 0 then Except.error zeroSizeMsg
      else
        let newSt := if !st && decide (0 < totalSize) then true else st
        Except.ok (newSt, detect (List.transpose rows))

/-- Python `range(1, n)` for an arbitrary integer bound `n`, as the list of
offsets `1, …, n-1` (empty when `n ≤ 1`). -/
def pyRange1 (n : Int) : List Nat := List.range' 1 (n - 1).toNat

/-- Ordering of peaks by their time frame (second component), the key used by
`picos.sort(key=lambda x: x[1])` at line 293. -/
def peakTimeLe (p q : Int × Int) : Prop := p.2 ≤ q.2

instance : DecidableRel peakTimeLe :=
  fun p q => inferInstanceAs (Decidable (p.2 ≤ q.2))

instance : IsTotal (Int × Int) peakTimeLe := ⟨fun p q => le_total p.2 q.2⟩

instance : IsTrans (Int × Int) peakTimeLe := ⟨fun _ _ _ h h2 => le_trans h h2⟩

/-- The stable ascending-by-time sort performed in place by
`picos.sort(key=lambda x: x[1])` (line 293, guarded by `ORDER_PICES = True`);
after `_generar_hashes` is consumed, the caller's list holds this value. -/
def pySortPeaks (picos : List (Int × Int)) : List (Int × Int) :=
  List.insertionSort peakTimeLe picos

/-- The constellation string built by the f-string at line 315: frequency of
the anchor, frequency of the target and their time delta, joined by vertical
bars. -/
def encodePair (f1 f2 tdelta : Int) : String :=
  toString f1 ++ "|" ++ toString f2 ++ "|" ++ toString tdelta

/-- Method `_generar_hashes` (lines 256-324), fully materialized (the Python
generator is finite and is consumed with `list(...)` by its only caller).
Peaks are sorted chronologically, each anchor at index `i` is paired with the
peaks at indices `i + j` for `j` in `range(1, valor_fan)` that exist
(line 303), the pair is kept when the time delta lies in
`[MIN_DELTA_TIME_HASH, MAX_DELTA_TIME_HASH]` (line 312), and the truncated
digest of the constellation string is emitted with the anchor time. -/
def generar_hashes (digest : String → String) (picos : List (Int × Int))
    (valor_fan : Int) : List (String × Int) :=
  let sorted := pySortPeaks picos
  (List.range sorted.length).flatMap (fun i =>
    let p1 := sorted.getD i (0, 0)
    (pyRange1 valor_fan).filterMap (fun j =>
      if i + j < sorted.length then
        let p2 := sorted.getD (i + j) (0, 0)
        let tdelta := p2.2 - p1.2
        if MIN_DELTA_TIME_HASH ≤ tdelta ∧ tdelta ≤ MAX_DELTA_TIME_HASH then
          some ((digest (encodePair p1.1 p2.1 tdelta)).take FOOTPRINT_REDUCTION,
                p1.2)
        else none
      else none))

/-- Claim-side restatement of hash generation, following the wording of C5
and spec §4.3: after the chronological sort, the anchor at index `i` is
paired with exactly the peaks at indices `i+1 … i+fan_value−1` (expressed by
`drop`/`take`, skipping indices past the end), with the inclusive delta
window and the truncated digest.  To be compared with `generar_hashes`. -/
def generate_hashes_claim (digest : String → String) (picos : List (Int × Int))
    (valor_fan : Int) : List (String × Int) :=
  let sorted := pySortPeaks picos
  (List.range sorted.length).flatMap (fun i =>
    let p1 := sorted.getD i (0, 0)
    ((sorted.drop (i + 1)).take (valor_fan - 1).toNat).filterMap (fun p2 =>
      let tdelta := p2.2 - p1.2
      if MIN_DELTA_TIME_HASH ≤ tdelta ∧ tdelta ≤ MAX_DELTA_TIME_HASH then
        some ((digest (encodePair p1.1 p2.1 tdelta)).take FOOTPRINT_REDUCTION,
              p1.2)
      else none))

/-- The `coincidencias` list of `_comparar_hashes` (lines 391-399): one
temporal offset `offset2 - offset1` per pair of entries with equal hash, in
the double-loop order of the source. -/
def coincidencias (hashes1 hashes2 : List (String × Int)) : List Int :=
  hashes1.flatMap (fun p =>
    hashes2.filterMap (fun q =>
      if p.1 = q.1 then some (q.2 - p.2) else none))

/-- Maximum multiplicity in a list: `max(Counter(c).values())`.  `c.dedup`
plays the role of the distinct keys of the `Counter`. -/
def maxCount (c : List Int) : Nat :=
  (c.dedup.map (fun d => c.count d)).foldr max 0

/-- Method `_comparar_hashes` (lines 362-410): score two hash lists by the
most frequent temporal offset among colliding hashes; 0 when there is no
collision (line 402). -/
def comparar_hashes (hashes1 hashes2 : List (String × Int)) : Nat :=
  let c := coincidencias hashes1 hashes2
  if c = [] then 0 else maxCount c

/-- Claim-side count of matching pairs: the number of pairs
`(p ∈ hashesA, q ∈ hashesB)` (with multiplicity) whose hashes agree and
whose offset `q.2 - p.2` equals `d`. -/
def pairCount (hashesA hashesB : List (String × Int)) (d : Int) : Nat :=
  (hashesA.map (fun p =>
    hashesB.countP (fun q => decide (p.1 = q.1 ∧ q.2 - p.2 = d)))).sum

/-- Ordering of `(identifier, score)` results by score descending, the key of
`sorted(mejores, key=lambda x: x[1], reverse=True)` at line 450. -/
def scoreGe (p q : String × Nat) : Prop := q.2 ≤ p.2

instance : DecidableRel scoreGe :=
  fun p q => inferInstanceAs (Decidable (q.2 ≤ p.2))

instance : IsTotal (String × Nat) scoreGe := ⟨fun p q => le_total q.2 p.2⟩

instance : IsTrans (String × Nat) scoreGe :=
  ⟨fun _ _ _ h h2 => le_trans h2 h⟩

/-- The `mejores` list of `find_similar_audio` (lines 435-447): each
candidate whose score against the target is positive, paired with that
score, in candidate order.  `extract` abstracts `_extraer_hashes_audio`
(the librosa load + fingerprint pipeline applied to a file). -/
def mejoresOf {β : Type} (extract : β → List (String × Int)) (target : β)
    (cands : List (String × β)) : List (String × Nat) :=
  cands.filterMap (fun c =>
    let score := comparar_hashes (extract target) (extract c.2)
    if 0 < score then some (c.1, score) else none)

/-- Method `find_similar_audio` (lines 412-454): collect the positive-score
candidates, sort them by score descending (Python `sorted` is stable), and
return a singleton list with the best match, or the empty list. -/
def find_similar_audio {β : Type} (extract : β → List (String × Int))
    (target : β) (cands : List (String × β)) : List (String × Nat) :=
  match List.insertionSort scoreGe (mejoresOf extract target cands) with
  | [] => []
  | b :: _ => [b]

/-- Method `find_match_in_all_audios` (lines 456-460): a wrapper that drops
`block_duration` and `min_matches` and delegates to `find_similar_audio`. -/
def find_match_in_all_audios {β : Type} (extract : List β → List (String × Int))
    (fragment : List β) (cands : List (String × List β))
    (block_duration : Nat) (min_matches : Nat) : List (String × Nat) :=
  find_similar_audio extract fragment cands

/-- Maximum of a list of natural numbers (0 for the empty list). -/
def maxListNat (l : List Nat) : Nat := l.foldr max 0

/-- Modelled from the spec: the 90th percentile of a list of block scores
(§4.5, "dynamic threshold"), read as the nearest-rank percentile of the
ascending sort.  The spec fixes no interpolation rule. -/
def percentile90 (scores : List Nat) : Nat :=
  (List.insertionSort (fun a b : Nat => a ≤ b) scores).getD
    ((scores.length * 9) / 10) 0

/-- Modelled from the spec: `scan_for_matches` of §4.5, which does not exist
in the source.  For each candidate: slide a window of
`block_duration_seconds × sample_rate` samples with 50% step (candidates
shorter than one block are skipped; a zero-length block is also skipped, the
spec presupposing a positive block size), score each block against the query
fingerprint, take the 90th percentile of the per-block scores as dynamic
threshold, count blocks at or above it, and report the candidate with its
maximum block score when the count reaches `min_matching_blocks`; rank
reported candidates by score descending. -/
def scan_for_matches_spec {β : Type} (extract : List β → List (String × Int))
    (query : List β) (sample_rate : Nat) (cands : List (String × List β))
    (block_duration_seconds : Nat) (min_matching_blocks : Nat) :
    List (String × Nat) :=
  let qfp := extract query
  let reported := cands.filterMap (fun c =>
    let blockLen := block_duration_seconds * sample_rate
    if c.2.length < blockLen ∨ blockLen = 0 then none
    else
      let step := max 1 (blockLen / 2)
      let nBlocks := (c.2.length - blockLen) / step + 1
      let scores := (List.range nBlocks).map (fun i =>
        comparar_hashes qfp (extract ((c.2.drop (i * step)).take blockLen)))
      let thr := percentile90 scores
      let cnt := scores.countP (fun s => decide (thr ≤ s))
      if min_matching_blocks ≤ cnt then some (c.1, maxListNat scores)
      else none)
  List.insertionSort scoreGe reported

/-- The fingerprinting pipeline of `_extraer_hashes_audio` restricted to the
core stages (lines 353-357): `_huellas_digitales` followed by
`list(_generar_hashes(picos))`, with the analyzer's `_ya_graficado` state
threaded through. -/
def pipeline (spectrumA : List ℚ → List ℚ) (log10q : ℚ → ℚ)
    (detect : List (List ℚ) → List (Int × Int)) (digest : String → String)
    (tamano_ventana : Nat) (relacion_superposicion : ℚ) (st : Bool)
    (muestras : List ℚ) (valor_fan : Int) :
    Except String (Bool × List (String × Int)) :=
  match huellas_digitales spectrumA log10q detect tamano_ventana
      relacion_superposicion st muestras with
  | Except.error e => Except.error e
  | Except.ok r => Except.ok (r.1, generar_hashes digest r.2 valor_fan)

/-! ### Helper lemmas on lists and counting -/

theorem countP_eq_sum_ite {α : Type} (g : α → Bool) (l : List α) :
    l.countP g = (l.map (fun x => if g x then 1 else 0)).sum := by
  induction l with
  | nil => rfl
  | cons x xs ih =>
      rw [List.countP_cons, List.map_cons, List.sum_cons, ih]
      by_cases h : g x <;> simp [h] <;> omega

theorem sum_countP_comm {α β : Type} (A : List α) (B : List β)
    (f : α → β → Bool) :
    (A.map (fun p => B.countP (f p))).sum
      = (B.map (fun q => A.countP (fun p => f p q))).sum := by
  induction A with
  | nil => simp
  | cons p A ih =>
      rw [List.map_cons, List.sum_cons, ih]
      have h1 : ∀ q, (p :: A).countP (fun r => f r q)
          = A.countP (fun r => f r q) + (if f p q then 1 else 0) := by
        intro q; rw [List.countP_cons]
      simp only [h1]
      rw [List.sum_map_add, countP_eq_sum_ite (f p) B]
      omega

theorem count_filterMap_offset (p : String × Int) (B : List (String × Int))
    (d : Int) :
    (B.filterMap (fun q =>
        if p.1 = q.1 then some (q.2 - p.2) else none)).count d
      = B.countP (fun q => decide (p.1 = q.1 ∧ q.2 - p.2 = d)) := by
  induction B with
  | nil => rfl
  | cons q B ih =>
      rw [List.filterMap_cons, List.countP_cons]
      by_cases h1 : p.1 = q.1
      · simp only [if_pos h1, List.count_cons, ih]
        by_cases h2 : q.2 - p.2 = d
        · simp [h1, h2]
        · simp [h1, h2]
      · simp only [if_neg h1, ih]
        simp [h1]

theorem count_coincidencias (A B : List (String × Int)) (d : Int) :
    (coincidencias A B).count d = pairCount A B d := by
  induction A with
  | nil => rfl
  | cons p A ih =>
      show ((B.filterMap fun q =>
          if p.1 = q.1 then some (q.2 - p.2) else none)
            ++ coincidencias A B).count d = _
      rw [List.count_append, ih, count_filterMap_offset]
      rfl

theorem pairCount_symm (A B : List (String × Int)) (d : Int) :
    pairCount A B d = pairCount B A (-d) := by
  unfold pairCount
  rw [sum_countP_comm]
  have h : ∀ (q p : String × Int),
      decide (p.1 = q.1 ∧ q.2 - p.2 = d)
        = decide (q.1 = p.1 ∧ p.2 - q.2 = -d) := by
    intro q p
    rw [decide_eq_decide]
    constructor
    · rintro ⟨ha, hb⟩; exact ⟨ha.symm, by omega⟩
    · rintro ⟨ha, hb⟩; exact ⟨ha.symm, by omega⟩
  simp only [h]

theorem foldr_max_mem (l : List Nat) (h : l ≠ []) : l.foldr max 0 ∈ l := by
  induction l with
  | nil => exact absurd rfl h
  | cons x xs ih =>
      cases xs with
      | nil => simp
      | cons y ys =>
          have hmem := ih (by simp)
          show max x ((y :: ys).foldr max 0) ∈ x :: y :: ys
          rcases max_choice x ((y :: ys).foldr max 0) with h1 | h1
          · rw [h1]; exact List.mem_cons_self _ _
          · rw [h1]; exact List.mem_cons_of_mem _ hmem

theorem le_foldr_max {x : Nat} {l : List Nat} (h : x ∈ l) :
    x ≤ l.foldr max 0 := by
  induction l with
  | nil => exact absurd h (List.not_mem_nil x)
  | cons y ys ih =>
      rcases List.mem_cons.mp h with rfl | hmem
      · exact le_max_left _ _
      · exact le_trans (ih hmem) (le_max_right _ _)

theorem le_maxCount {c : List Int} {d : Int} (hd : d ∈ c) :
    c.count d ≤ maxCount c :=
  le_foldr_max (List.mem_map_of_mem _ (List.mem_dedup.mpr hd))

theorem maxCount_attained {c : List Int} (h : c ≠ []) :
    ∃ d ∈ c, maxCount c = c.count d := by
  have hne : c.dedup.map (fun d => c.count d) ≠ [] := by
    simp only [ne_eq, List.map_eq_nil_iff, List.dedup_eq_nil]
    exact h
  have hmem := foldr_max_mem _ hne
  rcases List.mem_map.mp hmem with ⟨d, hd, he⟩
  exact ⟨d, List.mem_dedup.mp hd, he.symm⟩

theorem coincidencias_eq_nil_of_no_collision {A B : List (String × Int)}
    (h : ∀ p ∈ A, ∀ q ∈ B, p.1 ≠ q.1) : coincidencias A B = [] := by
  unfold coincidencias
  rw [List.flatMap_eq_nil_iff]
  intro p hp
  rw [List.filterMap_eq_nil_iff]
  intro q hq
  rw [if_neg (h p hp q hq)]

theorem count_coincidencias_swap (A B : List (String × Int)) (d : Int) :
    (coincidencias B A).count d = (coincidencias A B).count (-d) := by
  rw [count_coincidencias, count_coincidencias, pairCount_symm A B (-d),
    neg_neg]

theorem coincidencias_swap_nil_iff (A B : List (String × Int)) :
    coincidencias B A = [] ↔ coincidencias A B = [] := by
  constructor
  · intro h
    by_contra hne
    rcases List.exists_mem_of_ne_nil _ hne with ⟨x, hx⟩
    have hpos : 0 < (coincidencias A B).count x := List.count_pos_iff.mpr hx
    have := count_coincidencias_swap A B (-x)
    rw [h, neg_neg] at this
    simp only [List.count_nil] at this
    omega
  · intro h
    by_contra hne
    rcases List.exists_mem_of_ne_nil _ hne with ⟨x, hx⟩
    have hpos : 0 < (coincidencias B A).count x := List.count_pos_iff.mpr hx
    have := count_coincidencias_swap A B x
    rw [h] at this
    simp only [List.count_nil] at this
    omega

/-! ### Claim theorems for the matcher -/

/-- C6: the score of `_comparar_hashes` equals the maximum, over all offsets
`d`, of the number of pairs of entries of the two hash lists that share a
hash and have offset `d` — every such pair count is bounded by the score,
and the score is attained by some offset (or is 0); when no pair of entries
shares a hash the score is 0.  The score is a `Nat`, hence a non-negative
integer by construction. -/
theorem C6_matcher_score (A B : List (String × Int)) :
    (∀ d : Int, pairCount A B d ≤ comparar_hashes A B)
    ∧ (comparar_hashes A B = 0
        ∨ ∃ d : Int, comparar_hashes A B = pairCount A B d)
    ∧ ((∀ p ∈ A, ∀ q ∈ B, p.1 ≠ q.1) → comparar_hashes A B = 0) := by
  refine ⟨?_, ?_, ?_⟩
  · intro d
    rw [← count_coincidencias]
    by_cases hc : coincidencias A B = []
    · simp [comparar_hashes, hc]
    · rw [comparar_hashes, if_neg hc]
      by_cases hd : d ∈ coincidencias A B
      · exact le_maxCount hd
      · rw [List.count_eq_zero_of_not_mem hd]
        exact Nat.zero_le _
  · by_cases hc : coincidencias A B = []
    · left; simp [comparar_hashes, hc]
    · right
      rcases maxCount_attained hc with ⟨d, hd, he⟩
      refine ⟨d, ?_⟩
      rw [comparar_hashes, if_neg hc, ← count_coincidencias]
      exact he
  · intro hno
    have hcn := coincidencias_eq_nil_of_no_collision hno
    simp [comparar_hashes, hcn]

/-- Witness for C6 at a concrete input: two singleton hash lists with
different hashes score 0. -/
theorem C6_matcher_score_witness :
    comparar_hashes [(("a" : String), (0 : Int))] [(("b" : String), (3 : Int))]
      = 0 :=
  (C6_matcher_score _ _).2.2 (by decide)

/-- C10: the matcher's score is symmetric, because negating every recorded
offset is a count-preserving bijection between the offset lists of the two
orders. -/
theorem C10_score_symmetric (A B : List (String × Int)) :
    comparar_hashes A B = comparar_hashes B A := by
  by_cases hc : coincidencias A B = []
  · have hc2 := (coincidencias_swap_nil_iff A B).mpr hc
    simp [comparar_hashes, hc, hc2]
  · have hc2 : coincidencias B A ≠ [] :=
      fun h => hc ((coincidencias_swap_nil_iff A B).mp h)
    rw [comparar_hashes, comparar_hashes, if_neg hc, if_neg hc2]
    apply le_antisymm
    · rcases maxCount_attained hc with ⟨d, hd, he⟩
      rw [he]
      have hcount : (coincidencias A B).count d
          = (coincidencias B A).count (-d) := by
        rw [count_coincidencias_swap A B (-d), neg_neg]
      rw [hcount]
      apply le_maxCount
      rw [← List.count_pos_iff, ← hcount]
      exact List.count_pos_iff.mpr hd
    · rcases maxCount_attained hc2 with ⟨d, hd, he⟩
      rw [he]
      have hcount : (coincidencias B A).count d
          = (coincidencias A B).count (-d) :=
        count_coincidencias_swap A B d
      rw [hcount]
      apply le_maxCount
      rw [← List.count_pos_iff, ← hcount]
      exact List.count_pos_iff.mpr hd

/-! ### Helper lemmas about sorting and the best-match search -/

theorem insertionSort_eq_nil_iff {α : Type} (r : α → α → Prop)
    [DecidableRel r] (l : List α) : List.insertionSort r l = [] ↔ l = [] := by
  constructor
  · intro h
    have hperm := List.perm_insertionSort r l
    rw [h] at hperm
    exact hperm.symm.eq_nil
  · intro h
    rw [h]
    rfl

theorem insertionSort_scoreGe_head_max {l : List (String × Nat)}
    {b : String × Nat} {t : List (String × Nat)}
    (h : List.insertionSort scoreGe l = b :: t) :
    b ∈ l ∧ ∀ x ∈ l, x.2 ≤ b.2 := by
  have hperm := List.perm_insertionSort scoreGe l
  have hsorted := List.sorted_insertionSort scoreGe l
  rw [h] at hperm hsorted
  constructor
  · exact hperm.mem_iff.mp (List.mem_cons_self b t)
  · intro x hx
    have hx2 : x ∈ b :: t := hperm.mem_iff.mpr hx
    rcases List.mem_cons.mp hx2 with rfl | hxt
    · exact le_refl _
    · exact (List.sorted_cons.mp hsorted).1 x hxt

theorem mem_mejoresOf {β : Type} {extract : β → List (String × Int)}
    {target : β} {cands : List (String × β)} {b : String × Nat} :
    b ∈ mejoresOf extract target cands
      ↔ ∃ c ∈ cands, 0 < comparar_hashes (extract target) (extract c.2)
          ∧ b = (c.1, comparar_hashes (extract target) (extract c.2)) := by
  unfold mejoresOf
  rw [List.mem_filterMap]
  constructor
  · rintro ⟨c, hc, he⟩
    by_cases hs : 0 < comparar_hashes (extract target) (extract c.2)
    · rw [if_pos hs] at he
      exact ⟨c, hc, hs, (Option.some_inj.mp he).symm⟩
    · rw [if_neg hs] at he
      exact absurd he (Option.noConfusion)
  · rintro ⟨c, hc, hs, he⟩
    exact ⟨c, hc, by rw [if_pos hs, he]⟩

theorem mejoresOf_eq_nil_iff {β : Type} {extract : β → List (String × Int)}
    {target : β} {cands : List (String × β)} :
    mejoresOf extract target cands = []
      ↔ ∀ c ∈ cands, comparar_hashes (extract target) (extract c.2) = 0 := by
  unfold mejoresOf
  rw [List.filterMap_eq_nil_iff]
  constructor
  · intro h c hc
    have := h c hc
    by_cases hs : 0 < comparar_hashes (extract target) (extract c.2)
    · rw [if_pos hs] at this
      exact absurd this (Option.noConfusion)
    · omega
  · intro h c hc
    rw [if_neg]
    rw [h c hc]
    exact lt_irrefl 0

theorem length_find_similar_audio {β : Type}
    (extract : β → List (String × Int)) (target : β)
    (cands : List (String × β)) :
    (find_similar_audio extract target cands).length ≤ 1 := by
  unfold find_similar_audio
  split
  · simp
  · simp

/-- C7: `find_similar_audio` scores the query fingerprint against every
candidate and returns exactly the single highest-scoring candidate with its
score, or the empty result when no candidate scores above zero: the result
is empty iff all candidate scores are 0, it never has more than one entry,
and a returned entry carries a positive score that belongs to some candidate
and dominates every candidate's score.  With `extract` instantiated to the
identity, `target` and the candidates are fingerprint sets themselves. -/
theorem C7_best_match {β : Type} (extract : β → List (String × Int))
    (target : β) (cands : List (String × β)) :
    (find_similar_audio extract target cands = []
        ↔ ∀ c ∈ cands, comparar_hashes (extract target) (extract c.2) = 0)
    ∧ (find_similar_audio extract target cands).length ≤ 1
    ∧ ∀ b : String × Nat, find_similar_audio extract target cands = [b] →
        0 < b.2
        ∧ (∃ c ∈ cands, c.1 = b.1
            ∧ comparar_hashes (extract target) (extract c.2) = b.2)
        ∧ ∀ c ∈ cands, comparar_hashes (extract target) (extract c.2) ≤ b.2 := by
  refine ⟨?_, length_find_similar_audio extract target cands, ?_⟩
  · unfold find_similar_audio
    rw [← @mejoresOf_eq_nil_iff _ extract target cands]
    rw [← insertionSort_eq_nil_iff scoreGe (mejoresOf extract target cands)]
    cases hs : List.insertionSort scoreGe (mejoresOf extract target cands) with
    | nil => simp
    | cons b t => simp
  · intro b hb
    unfold find_similar_audio at hb
    cases hs : List.insertionSort scoreGe (mejoresOf extract target cands) with
    | nil => rw [hs] at hb; exact absurd hb (by simp)
    | cons hd t =>
        rw [hs] at hb
        have hbhd : hd = b := by
          have := List.cons.injEq hd [] b []
          simpa using hb
        subst hbhd
        rcases insertionSort_scoreGe_head_max hs with ⟨hmem, hmax⟩
        rcases mem_mejoresOf.mp hmem with ⟨c, hc, hpos, hbe⟩
        refine ⟨?_, ⟨c, hc, ?_, ?_⟩, ?_⟩
        · rw [hbe]; exact hpos
        · rw [hbe]
        · rw [hbe]
        · intro c2 hc2
          by_cases hs2 : 0 < comparar_hashes (extract target) (extract c2.2)
          · have hmem2 : (c2.1, comparar_hashes (extract target) (extract c2.2))
                ∈ mejoresOf extract target cands :=
              mem_mejoresOf.mpr ⟨c2, hc2, hs2, rfl⟩
            exact hmax _ hmem2
          · omega

/-- Witness for C7: a single candidate sharing one hash with the query is
returned as the best match with its positive score. -/
theorem C7_best_match_witness :
    0 < ((("c1" : String), (1 : Nat))).2
    ∧ (∃ c ∈ [(("c1" : String), [(("x" : String), (5 : Int))])],
        c.1 = (("c1" : String), (1 : Nat)).1
        ∧ comparar_hashes (id [(("x" : String), (0 : Int))]) (id c.2)
            = (("c1" : String), (1 : Nat)).2)
    ∧ ∀ c ∈ [(("c1" : String), [(("x" : String), (5 : Int))])],
        comparar_hashes (id [(("x" : String), (0 : Int))]) (id c.2)
          ≤ ((("c1" : String), (1 : Nat))).2 :=
  (C7_best_match id [(("x" : String), (0 : Int))]
    [(("c1" : String), [(("x" : String), (5 : Int))])]).2.2
    (("c1" : String), (1 : Nat)) (by decide)

/-- C9: consuming the `_generar_hashes` generator reorders the caller's peak
list in place (line 293) into ascending time-frame order: the post-state
`pySortPeaks picos` is a permutation of the original list (same multiset of
peak tuples), it is sorted by time frame, and feeding the post-state back
into the generator yields the same hash sequence. -/
theorem C9_sort_frame_effect (picos : List (Int × Int)) :
    (pySortPeaks picos).Perm picos
    ∧ List.Sorted peakTimeLe (pySortPeaks picos)
    ∧ ∀ (digest : String → String) (valor_fan : Int),
        generar_hashes digest (pySortPeaks picos) valor_fan
          = generar_hashes digest picos valor_fan := by
  refine ⟨List.perm_insertionSort peakTimeLe picos,
    List.sorted_insertionSort peakTimeLe picos, ?_⟩
  intro digest valor_fan
  have hidem : pySortPeaks (pySortPeaks picos) = pySortPeaks picos :=
    List.Sorted.insertionSort_eq (List.sorted_insertionSort peakTimeLe picos)
  unfold generar_hashes
  rw [hidem]

/-- C3 counterexample: the claim says the block scanner slides
`block_duration_seconds × sample_rate`-sized blocks, thresholds at the 90th
percentile and requires `min_matching_blocks` blocks, as formalized by
`scan_for_matches_spec`.  At a concrete input — one candidate of 2 samples,
block length 4·1, `min_matching_blocks = 2` and a constant fingerprint —
the spec-side scanner skips the too-short candidate and returns no match,
while the code's `find_match_in_all_audios` ignores both parameters and
reports the candidate, so the claim is false of the code. -/
theorem C3_block_scan_counterexample :
    find_match_in_all_audios (fun _ : List Int => [(("h" : String), (0 : Int))])
        [(0 : Int)] [(("a" : String), [(0 : Int), (0 : Int)])] 4 2
      ≠ scan_for_matches_spec (fun _ : List Int => [(("h" : String), (0 : Int))])
        [(0 : Int)] 1 [(("a" : String), [(0 : Int), (0 : Int)])] 4 2 := by
  decide

/-- C3 amended: `find_match_in_all_audios` performs no block scanning at
all — it ignores `block_duration` and `min_matches` entirely and returns
`find_similar_audio`'s whole-candidate result, which contains at most one
entry (the best whole-recording match). -/
theorem C3_wrapper_amended {β : Type} (extract : List β → List (String × Int))
    (fragment : List β) (cands : List (String × List β))
    (bd mm bd2 mm2 : Nat) :
    find_match_in_all_audios extract fragment cands bd mm
        = find_similar_audio extract fragment cands
    ∧ find_match_in_all_audios extract fragment cands bd mm
        = find_match_in_all_audios extract fragment cands bd2 mm2
    ∧ (find_match_in_all_audios extract fragment cands bd mm).length ≤ 1 :=
  ⟨rfl, rfl, length_find_similar_audio extract fragment cands⟩

/-- C4 counterexample: the claim says a call with `fan_value < 1` fails fast
with a descriptive error rather than silently producing empty output.  At a
concrete input, `_generar_hashes` with `valor_fan = 0` silently returns the
empty sequence (no error exists on this code path), while the same peak list
with the default fan value produces output — the degraded-empty behaviour
the claim rules out. -/
theorem C4_no_validation_counterexample :
    generar_hashes (fun s => s) [((1 : Int), (0 : Int)), (2, 5)] 0 = []
    ∧ generar_hashes (fun s => s) [((1 : Int), (0 : Int)), (2, 5)]
        DEFAULT_FAN_VALUE ≠ [] := by
  constructor
  · rfl
  · decide

/-- C4 amended: `_generar_hashes` performs no parameter validation; for any
fan value below 1 it silently yields the empty hash sequence, with no error
raised, whatever the peak list. -/
theorem C4_fan_lt_one_silent (digest : String → String)
    (picos : List (Int × Int)) (valor_fan : Int) (h : valor_fan < 1) :
    generar_hashes digest picos valor_fan = [] := by
  have hr : pyRange1 valor_fan = [] := by
    unfold pyRange1
    have ht : (valor_fan - 1).toNat = 0 := by omega
    rw [ht]
    rfl
  unfold generar_hashes
  rw [List.flatMap_eq_nil_iff]
  intro i hi
  simp [hr]

/-- Witness for the amended C4 at a concrete input. -/
theorem C4_fan_lt_one_silent_witness :
    generar_hashes (fun s => s ++ s) [((3 : Int), (1 : Int))] (-2) = [] :=
  C4_fan_lt_one_silent _ _ _ (by decide)

/-! ### Helper lemmas for the hash-generation claim -/

theorem filterMap_range1_reindex {γ : Type} (F : Nat → Option γ) (i K : Nat) :
    (List.range' 1 K).filterMap (fun j => F (i + j))
      = (List.range' (i + 1) K).filterMap F := by
  rw [List.range'_eq_map_range, List.range'_eq_map_range,
    List.filterMap_map, List.filterMap_map]
  congr 1
  funext x
  show F (i + (1 + x)) = F (i + 1 + x)
  congr 1
  omega

theorem drop_take_filterMap {γ : Type} (s : List γ) (dflt : γ) (m K : Nat) :
    (s.drop m).take K
      = (List.range' m K).filterMap
          (fun k => if k < s.length then some (s.getD k dflt) else none) := by
  induction K generalizing m with
  | zero => simp
  | succ K ih =>
      rw [List.range'_succ, List.filterMap_cons]
      by_cases hm : m < s.length
      · simp only [if_pos hm]
        rw [List.drop_eq_getElem_cons hm, List.take_succ_cons,
          List.getD_eq_getElem s dflt hm, ih (m + 1)]
      · have hd : s.drop m = [] := List.drop_eq_nil_of_le (by omega)
        have hd2 : s.drop (m + 1) = [] := List.drop_eq_nil_of_le (by omega)
        simp only [if_neg hm]
        rw [hd, List.take_nil, ← ih (m + 1), hd2, List.take_nil]

theorem pairing_drop_take {γ : Type} (g : Int × Int → Option γ)
    (s : List (Int × Int)) (K i : Nat) :
    (List.range' 1 K).filterMap (fun j =>
        if i + j < s.length then g (s.getD (i + j) (0, 0)) else none)
      = ((s.drop (i + 1)).take K).filterMap g := by
  rw [drop_take_filterMap s (0, 0) (i + 1) K, List.filterMap_filterMap]
  rw [← filterMap_range1_reindex
    (fun k => (if k < s.length then some (s.getD k (0, 0)) else none).bind g)
    i K]
  congr 1
  funext j
  by_cases h : i + j < s.length
  · simp [h]
  · simp [h]

theorem sum_map_le {α : Type} (l : List α) (g : α → Nat) (K : Nat)
    (h : ∀ x ∈ l, g x ≤ K) : (l.map g).sum ≤ l.length * K := by
  induction l with
  | nil => simp
  | cons x xs ih =>
      rw [List.map_cons, List.sum_cons, List.length_cons]
      have h1 := h x (List.mem_cons_self x xs)
      have h2 := ih (fun y hy => h y (List.mem_cons_of_mem x hy))
      have h3 : (xs.length + 1) * K = xs.length * K + K := by ring
      omega

theorem length_pyRange1 (n : Int) : (pyRange1 n).length = (n - 1).toNat := by
  unfold pyRange1
  rw [List.length_range']

/-- C5: hash generation sorts the peaks by time-frame ascending and then
pairs each anchor at index `i` with exactly the peaks at indices `i+1`
through `i+fan_value−1` (indices past the end skipped), keeping a pair iff
the time delta lies in the inclusive window and emitting the truncated
digest of the encoded triple with the anchor time (this is the equality with
`generate_hashes_claim`); the output length is at most
`len(peaks) × (fan_value − 1)`; and on the boundary example the pair with
delta 200 is kept while the pair with delta 250 is excluded. -/
theorem C5_hash_generation (digest : String → String)
    (picos : List (Int × Int)) (valor_fan : Int) :
    generar_hashes digest picos valor_fan
        = generate_hashes_claim digest picos valor_fan
    ∧ (generar_hashes digest picos valor_fan).length
        ≤ picos.length * (valor_fan - 1).toNat
    ∧ generar_hashes digest [((1 : Int), (0 : Int)), (2, 200), (3, 250)]
        DEFAULT_FAN_VALUE
        = [((digest (encodePair 1 2 200)).take FOOTPRINT_REDUCTION, 0),
           ((digest (encodePair 2 3 50)).take FOOTPRINT_REDUCTION, 200)] := by
  refine ⟨?_, ?_, ?_⟩
  · simp only [generar_hashes, generate_hashes_claim]
    congr 1
    funext i
    exact pairing_drop_take
      (fun p2 =>
        if MIN_DELTA_TIME_HASH ≤ p2.2 - ((pySortPeaks picos).getD i (0, 0)).2
            ∧ p2.2 - ((pySortPeaks picos).getD i (0, 0)).2
                ≤ MAX_DELTA_TIME_HASH then
          some ((digest (encodePair ((pySortPeaks picos).getD i (0, 0)).1 p2.1
                  (p2.2 - ((pySortPeaks picos).getD i (0, 0)).2))).take
                    FOOTPRINT_REDUCTION,
                ((pySortPeaks picos).getD i (0, 0)).2)
        else none)
      (pySortPeaks picos) (valor_fan - 1).toNat i
  · unfold generar_hashes
    rw [List.length_flatMap]
    have hb : ∀ i ∈ List.range (pySortPeaks picos).length,
        (List.length ∘ fun i =>
          (pyRange1 valor_fan).filterMap (fun j =>
            if i + j < (pySortPeaks picos).length then
              if MIN_DELTA_TIME_HASH
                  ≤ ((pySortPeaks picos).getD (i + j) (0, 0)).2
                      - ((pySortPeaks picos).getD i (0, 0)).2
                  ∧ ((pySortPeaks picos).getD (i + j) (0, 0)).2
                      - ((pySortPeaks picos).getD i (0, 0)).2
                      ≤ MAX_DELTA_TIME_HASH then
                some ((digest (encodePair ((pySortPeaks picos).getD i (0, 0)).1
                        ((pySortPeaks picos).getD (i + j) (0, 0)).1
                        (((pySortPeaks picos).getD (i + j) (0, 0)).2
                          - ((pySortPeaks picos).getD i (0, 0)).2))).take
                          FOOTPRINT_REDUCTION,
                      ((pySortPeaks picos).getD i (0, 0)).2)
              else none
            else none)) i ≤ (valor_fan - 1).toNat := by
      intro i hi
      refine le_trans (List.length_filterMap_le _ _) ?_
      rw [length_pyRange1]
    refine le_trans (sum_map_le _ _ _ hb) ?_
    rw [List.length_range]
    have hl : (pySortPeaks picos).length = picos.length := by
      unfold pySortPeaks
      rw [List.length_insertionSort]
    rw [hl]
  · rfl

/-! ### Behaviour of the spectrogram stage on degenerate inputs -/

theorem buildSpectro_zero (spectrumA : List ℚ → List ℚ) (log10q : ℚ → ℚ)
    (muestras : List ℚ) (tv hop : Nat) :
    buildSpectro spectrumA log10q muestras tv hop 0 = Except.ok [] := rfl

/-- C1: the claim (spec §4.1/§7) says a buffer shorter than one analysis
window gives an empty spectrogram, empty peak and hash sequences, and no
error.  The code does compute zero frames, but the debug print at line 206
then evaluates `np.min` on the empty spectrogram array, which raises a
zero-size-reduction `ValueError` — so `_huellas_digitales` errors on every
such buffer instead of returning the empty result. -/
theorem C1_short_buffer_errors (spectrumA : List ℚ → List ℚ)
    (log10q : ℚ → ℚ) (detect : List (List ℚ) → List (Int × Int))
    (tamano_ventana : Nat) (relacion : ℚ) (st : Bool) (muestras : List ℚ)
    (h : muestras.length < tamano_ventana) :
    huellas_digitales spectrumA log10q detect tamano_ventana relacion st
        muestras = Except.error zeroSizeMsg := by
  have hno : ¬ tamano_ventana ≤ muestras.length := by omega
  have hcore : huellas_core spectrumA log10q tamano_ventana muestras
      = Except.ok [] := by
    simp only [huellas_core]
    rw [if_neg hno]
    rfl
  unfold huellas_digitales
  rw [hcore]
  rfl

/-- Witness for C1 at a concrete input: a one-sample buffer with the default
window size of 1024 makes the pipeline raise. -/
theorem C1_short_buffer_errors_witness :
    huellas_digitales (fun l => l) (fun x => x) (fun _ => []) 1024 (1 / 2)
        false [(0 : ℚ)] = Except.error zeroSizeMsg :=
  C1_short_buffer_errors _ _ _ _ _ _ _ (by decide)

theorem buildSpectro_silence_errors (spectrumA : List ℚ → List ℚ)
    (log10q : ℚ → ℚ) (n tv hop : Nat)
    (hzero : ∀ frame : List ℚ, (∀ x ∈ frame, x = 0)
      → ∀ y ∈ spectrumA frame, y = 0)
    (htv : 1 ≤ tv) (hn : tv ≤ n) :
    ∀ m : Nat, buildSpectro spectrumA log10q (List.replicate n (0 : ℚ)) tv hop
        (m + 1) = Except.error zeroSizeMsg := by
  intro m
  induction m with
  | zero =>
      have hframe : ((List.replicate n (0 : ℚ)).drop (0 * hop)).take tv
          = List.replicate tv (0 : ℚ) := by
        rw [Nat.zero_mul, List.drop_zero, List.take_replicate,
          Nat.min_eq_left hn]
      have hlen : ¬ (List.replicate tv (0 : ℚ)).length < tv := by
        rw [List.length_replicate]
        omega
      have hall : ∀ y ∈ spectrumA (List.replicate tv (0 : ℚ)), y = 0 :=
        hzero _ (fun x hx => List.eq_of_mem_replicate hx)
      have hfil : (spectrumA (List.replicate tv (0 : ℚ))).filter
          (fun x => decide (x ≠ 0)) = [] := by
        rw [List.filter_eq_nil_iff]
        intro a ha
        simp [hall a ha]
      simp only [buildSpectro]
      rw [hframe, if_neg hlen]
      unfold reemplazarCeros
      rw [hfil]
      rfl
  | succ k ih =>
      simp only [buildSpectro] at ih ⊢
      rw [ih]

/-- C2: the claim (spec §7 DegenerateSpectrum) says an all-zero buffer long
enough for several windows yields zero peaks and no error, the all-zero
magnitude spectrum being handled by zero-substitution.  But
`_reemplazarCeros` computes `np.min(datos[np.nonzero(datos)])`, and on an
all-zero frame the nonzero selection is empty, so `np.min` raises a
zero-size-reduction `ValueError`: the pipeline errors on every all-zero
buffer that fills at least one window. -/
theorem C2_silence_errors (spectrumA : List ℚ → List ℚ) (log10q : ℚ → ℚ)
    (detect : List (List ℚ) → List (Int × Int)) (tamano_ventana : Nat)
    (relacion : ℚ) (st : Bool) (n : Nat)
    (hzero : ∀ frame : List ℚ, (∀ x ∈ frame, x = 0)
      → ∀ y ∈ spectrumA frame, y = 0)
    (htv : 2 ≤ tamano_ventana) (hn : tamano_ventana ≤ n) :
    huellas_digitales spectrumA log10q detect tamano_ventana relacion st
        (List.replicate n (0 : ℚ)) = Except.error zeroSizeMsg := by
  have hlen : (List.replicate n (0 : ℚ)).length = n := List.length_replicate n 0
  have hyes : tamano_ventana ≤ (List.replicate n (0 : ℚ)).length := by omega
  have hhop : ¬ tamano_ventana / 2 = 0 := by omega
  have hcore : huellas_core spectrumA log10q tamano_ventana
      (List.replicate n (0 : ℚ)) = Except.error zeroSizeMsg := by
    simp only [huellas_core]
    rw [if_pos hyes, if_neg hhop]
    have hframes : 1 + ((List.replicate n (0 : ℚ)).length - tamano_ventana)
        / (tamano_ventana / 2)
        = ((List.replicate n (0 : ℚ)).length - tamano_ventana)
            / (tamano_ventana / 2) + 1 := by omega
    rw [hframes]
    exact buildSpectro_silence_errors spectrumA log10q n tamano_ventana
      (tamano_ventana / 2) hzero (by omega) hn
      (((List.replicate n (0 : ℚ)).length - tamano_ventana)
        / (tamano_ventana / 2))
  unfold huellas_digitales
  rw [hcore]

/-- Witness for C2 at a concrete input: eight zero samples with window size 2
(four full windows) make the pipeline raise inside `_reemplazarCeros`. -/
theorem C2_silence_errors_witness :
    huellas_digitales (fun _ => [(0 : ℚ)]) (fun x => x) (fun _ => []) 2 0
        false (List.replicate 8 (0 : ℚ)) = Except.error zeroSizeMsg :=
  C2_silence_errors _ _ _ _ _ _ _
    (by
      intro frame hf y hy
      simpa using hy)
    (by decide) (by decide)

/-! ### Determinism of the fingerprinting pipeline -/

theorem huellas_snd_indep (spectrumA : List ℚ → List ℚ) (log10q : ℚ → ℚ)
    (detect : List (List ℚ) → List (Int × Int)) (tamano_ventana : Nat)
    (relacion : ℚ) (muestras : List ℚ) (st1 st2 : Bool) :
    (huellas_digitales spectrumA log10q detect tamano_ventana relacion st1
        muestras).map Prod.snd
      = (huellas_digitales spectrumA log10q detect tamano_ventana relacion st2
          muestras).map Prod.snd := by
  unfold huellas_digitales
  cases hc : huellas_core spectrumA log10q tamano_ventana muestras with
  | error e => rfl
  | ok rows =>
      by_cases ht : (rows.map List.length).sum = 0
      · simp [ht]
      · simp [ht, Except.map]

theorem pipeline_snd_indep (spectrumA : List ℚ → List ℚ) (log10q : ℚ → ℚ)
    (detect : List (List ℚ) → List (Int × Int)) (digest : String → String)
    (tamano_ventana : Nat) (relacion : ℚ) (muestras : List ℚ)
    (valor_fan : Int) (st1 st2 : Bool) :
    (pipeline spectrumA log10q detect digest tamano_ventana relacion st1
        muestras valor_fan).map Prod.snd
      = (pipeline spectrumA log10q detect digest tamano_ventana relacion st2
          muestras valor_fan).map Prod.snd := by
  have h := huellas_snd_indep spectrumA log10q detect tamano_ventana relacion
    muestras st1 st2
  unfold pipeline
  cases h1 : huellas_digitales spectrumA log10q detect tamano_ventana relacion
      st1 muestras with
  | error e =>
      cases h2 : huellas_digitales spectrumA log10q detect tamano_ventana
          relacion st2 muestras with
      | error e2 =>
          rw [h1, h2] at h
          simp only [Except.map] at h
          cases h
          rfl
      | ok r2 =>
          rw [h1, h2] at h
          simp [Except.map] at h
  | ok r =>
      cases h2 : huellas_digitales spectrumA log10q detect tamano_ventana
          relacion st2 muestras with
      | error e2 =>
          rw [h1, h2] at h
          simp [Except.map] at h
      | ok r2 =>
          rw [h1, h2] at h
          simp only [Except.map, Except.ok.injEq] at h
          simp [Except.map, h]

/-- C8: determinism of the full core pipeline.  The embedded pipeline is a
pure function of the sample buffer and parameters, so the only possible
sources of run-to-run variation are the analyzer's mutable state
(`_ya_graficado`) and the in-place peak mutation, and neither affects the
hash/reference-time output: the output component is independent of the
incoming state, and a second run launched with the state left by a first
successful run reproduces the first run's output byte for byte. -/
theorem C8_determinism (spectrumA : List ℚ → List ℚ) (log10q : ℚ → ℚ)
    (detect : List (List ℚ) → List (Int × Int)) (digest : String → String)
    (tamano_ventana : Nat) (relacion : ℚ) (muestras : List ℚ)
    (valor_fan : Int) :
    (∀ st1 st2 : Bool,
      (pipeline spectrumA log10q detect digest tamano_ventana relacion st1
          muestras valor_fan).map Prod.snd
        = (pipeline spectrumA log10q detect digest tamano_ventana relacion st2
            muestras valor_fan).map Prod.snd)
    ∧ ∀ (st st2 : Bool) (out : List (String × Int)),
        pipeline spectrumA log10q detect digest tamano_ventana relacion st
            muestras valor_fan = Except.ok (st2, out) →
        (pipeline spectrumA log10q detect digest tamano_ventana relacion st2
            muestras valor_fan).map Prod.snd = Except.ok out := by
  refine ⟨pipeline_snd_indep spectrumA log10q detect digest tamano_ventana
    relacion muestras valor_fan, ?_⟩
  intro st st2 out h
  rw [pipeline_snd_indep spectrumA log10q detect digest tamano_ventana
    relacion muestras valor_fan st2 st, h]
  rfl

/-- Witness for C8 at a concrete input: a two-sample buffer with window size
2, concrete numeric kernels and the state flag set by a first successful run
reproduces that run's (empty) hash output. -/
theorem C8_determinism_witness :
    (pipeline (fun _ => [(1 : ℚ)]) (fun x => x) (fun _ => []) (fun s => s) 2 0
        true (List.replicate 2 (0 : ℚ)) 15).map Prod.snd
      = Except.ok ([] : List (String × Int)) :=
  (C8_determinism (fun _ => [(1 : ℚ)]) (fun x => x) (fun _ => []) (fun s => s)
    2 0 (List.replicate 2 (0 : ℚ)) 15).2 false true [] (by rfl)

end ToneTrace
